import Mathlib

/-!
Shallow embedding of `decompiler/level_extractor/extract_level.cpp`
(level assembly orchestrator of the OpenGOAL level extractor).

Strings are modelled as `List Char` (`Str`), mirroring C++ `std::string`
as a character sequence.  Maps (`std::unordered_map`, `std::map`) are
modelled as association lists; `.at` failures (which terminate the
process via an uncaught exception) and `ASSERT` failures (which abort)
are both modelled as `Except.error` of a structured `Err` value.
External collaborators (the per-geometry extractors `extract_tfrag`,
`extract_tie`, `extract_shrub`, `extract_collide_frags`, `extract_merc`,
the object-file decoder `BspHeader::read_from_file`, serialization and
compression) are out of scope of this subsystem; their effect on the
geometry payload of the output level is not modelled, but the control
flow around them (which calls happen, in which order, and which aborts
they can trigger through this file's own `ASSERT`s) is.
-/

namespace ExtractLevel

abbrev Str := List Char

/-- Errors that abort the process: `ASSERT` / `ASSERT_MSG` failures and
`std::out_of_range` from `.at` lookups.  `badDuplicate` is the
`ASSERT_MSG` in `confirm_textures_identical`, which reports the key and
both byte lengths. -/
inductive Err where
  | assertFail (msg : Str)
  | outOfRange (what : Str)
  | badDuplicate (name : Str) (newLen : Nat) (storedLen : Nat)
deriving DecidableEq, Repr

/-- `s.substr(0, s.length() - 4)`: `length()` is `size_t`, so for
`s.length() < 4` the count wraps around to a huge value and `substr`
clamps it to the whole string; for `s.length() ≥ 4` it keeps the first
`length - 4` characters. -/
def base_name (s : Str) : Str :=
  if 4 ≤ s.length then s.take (s.length - 4) else s

/-- One object file inside a DGO archive: the name (the opaque handle
used by `lookup_record` is modelled by keying the database on the whole
record). -/
structure ObjectFileRecord where
  name : Str
deriving DecidableEq, Repr

/-- The `-vis` test of `get_bsp_file`:
`file.name.length() > 4 && file.name.substr(file.name.length() - 4) == "-vis"`. -/
def visCond (f : ObjectFileRecord) : Bool :=
  4 < f.name.length && f.name.drop (f.name.length - 4) == "-vis".data

/-- The scan loop of `get_bsp_file`: walk the records; on a `-vis`
match, `ASSERT(!found)` (abort if a match was already recorded — the
`found` flag is `acc.isSome`), else record it. -/
def get_bsp_loop : List ObjectFileRecord → Option ObjectFileRecord →
    Except Err (Option ObjectFileRecord)
  | [], acc => .ok acc
  | f :: rest, acc =>
    if visCond f then
      if acc.isSome then .error (.assertFail "ASSERT(!found)".data)
      else get_bsp_loop rest (some f)
    else get_bsp_loop rest acc

/-- `str_util::ends_with`. -/
def endsWithL (s suffix : Str) : Bool :=
  suffix.isSuffixOf s

/-- The lowered, extension-stripped archive name used by the fallback:
`dgo_name.substr(0, dgo_name.length() - 4)` with each char `tolower`ed
(only reached when the name ends in `.DGO`/`.CGO`, hence length ≥ 4). -/
def lowerBase (dgo_name : Str) : Str :=
  (dgo_name.take (dgo_name.length - 4)).map Char.toLower

/-- The fallback heuristic of `get_bsp_file`: when the archive name ends
in `.DGO`/`.CGO` and the record list is non-empty, return the last
record if its name equals the lower-cased, extension-stripped archive
name (`!records.empty() && expected_name == records.back().name`). -/
def get_bsp_fallback (records : List ObjectFileRecord) (dgo_name : Str) :
    Option ObjectFileRecord :=
  if endsWithL dgo_name ".DGO".data || endsWithL dgo_name ".CGO".data then
    (records.getLast?).bind (fun last =>
      if lowerBase dgo_name == last.name then some last else none)
  else none

/-- `get_bsp_file`: find the record holding the bsp header.  Scan for a
`-vis`-suffixed record (at most one, else fatal); if none, try the
name-heuristic fallback. -/
def get_bsp_file (records : List ObjectFileRecord) (dgo_name : Str) :
    Except Err (Option ObjectFileRecord) :=
  match get_bsp_loop records none with
  | .error e => .error e
  | .ok (some r) => .ok (some r)
  | .ok none => .ok (get_bsp_fallback records dgo_name)

/-! ## BSP Validator (`is_valid_bsp`) -/

/-- One tagged word of a decoded object file (`decompiler::LinkedWord`).
Only the kinds this subsystem inspects are distinguished; `symbol_name()`
is defined for symbol and type pointers. -/
inductive LinkedWord where
  | plainData (val : Nat)
  | ptr (label : Nat)
  | symPtr (name : Str)
  | typePtr (name : Str)
  | emptyPtr
deriving DecidableEq, Repr

/-- `kind() == LinkedWord::TYPE_PTR`. -/
def LinkedWord.isTypePtr : LinkedWord → Bool
  | .typePtr _ => true
  | _ => false

/-- `symbol_name()`: defined for `SYM_PTR`/`TYPE_PTR` words only. -/
def LinkedWord.symbol_name : LinkedWord → Option Str
  | .symPtr n => some n
  | .typePtr n => some n
  | _ => none

/-- Decoded object data (`decompiler::LinkedObjectFile`): a segment count
(C++ `int`) and the words of each segment. -/
structure LinkedObjectFile where
  segments : Int
  words_by_seg : List (List LinkedWord)
deriving DecidableEq, Repr

/-- The specific reason logged by `is_valid_bsp` when it returns false. -/
inductive BspBad where
  | badSegmentCount (got : Int)
  | firstWordNotTypePtr
  | wrongTypeName (got : Str)
deriving DecidableEq, Repr

/-- `is_valid_bsp`: `.ok none` models returning `true`; `.ok (some r)`
models returning `false` after logging reason `r`; `.error` models the
uncaught `std::out_of_range` of `words_by_seg.at(0).at(0)` when the word
does not exist. -/
def is_valid_bsp (file : LinkedObjectFile) : Except Err (Option BspBad) :=
  if file.segments ≠ 1 then .ok (some (.badSegmentCount file.segments))
  else
    match (file.words_by_seg.get? 0).bind (fun seg => seg.get? 0) with
    | none => .error (.outOfRange "words_by_seg.at(0).at(0)".data)
    | some first_word =>
      if ¬ first_word.isTypePtr then .ok (some .firstWordNotTypePtr)
      else
        match first_word.symbol_name with
        | none => .error (.assertFail "symbol_name on non-symbol word".data)
        | some s =>
          if s ≠ "bsp-header".data then .ok (some (.wrongTypeName s))
          else .ok none

/-! ## Texture pool and texture collation -/

/-- One texture of the shared pool (`TextureDB` entry): source page id,
name, dimensions and raw pixel bytes. -/
structure DBTexture where
  page : Nat
  name : Str
  w : Nat
  h : Nat
  rgba_bytes : List Nat
deriving DecidableEq, Repr

/-- The shared texture pool.  The three maps are modelled as association
lists whose order gives the (otherwise unspecified) iteration order of
the C++ containers. -/
structure TextureDB where
  textures : List (Nat × DBTexture)
  texture_ids_per_level : List (Str × List Nat)
  tpage_names : List (Nat × Str)
deriving DecidableEq, Repr

/-- One texture descriptor of the output level (`tfrag3::Texture`). -/
structure Tfrag3Texture where
  combo_id : Nat
  w : Nat
  h : Nat
  debug_tpage_name : Str
  debug_name : Str
  data : List Nat
  load_to_pool : Bool
deriving DecidableEq, Repr

/-- The assembled output level (`tfrag3::Level`): the fields this
subsystem itself reads or writes.  Geometry payloads are filled in by
the external per-kind extractors and are not modelled. -/
structure Level where
  level_name : Str := []
  textures : List Tfrag3Texture := []
deriving DecidableEq, Repr

/-- The loop body of `add_all_textures_from_level` for one texture id:
`textures.at(id)` and `tpage_names.at(tex.page)` abort on a missing key;
otherwise one descriptor is appended. -/
def add_one_texture (tex_db : TextureDB) (lev : Level) (id : Nat) :
    Except Err Level :=
  match tex_db.textures.lookup id with
  | none => .error (.outOfRange "textures.at(id)".data)
  | some tex =>
    match tex_db.tpage_names.lookup tex.page with
    | none => .error (.outOfRange "tpage_names.at(tex.page)".data)
    | some pname =>
      .ok { lev with
        textures := lev.textures ++
          [{ combo_id := id, w := tex.w, h := tex.h,
             debug_tpage_name := pname, debug_name := pname ++ tex.name,
             data := tex.rgba_bytes, load_to_pool := true }] }

/-- `add_all_textures_from_level`: `ASSERT(lev.textures.empty())`, then
copy every texture id registered for `level_name` (nothing if the level
name is absent from the index). -/
def add_all_textures_from_level (lev : Level) (level_name : Str)
    (tex_db : TextureDB) : Except Err Level :=
  if lev.textures.isEmpty then
    match tex_db.texture_ids_per_level.lookup level_name with
    | none => .ok lev
    | some ids => ids.foldlM (add_one_texture tex_db) lev
  else .error (.assertFail "ASSERT(lev.textures.empty())".data)

/-- The loop of `confirm_textures_identical`: `seen` is the `tex_dupl`
map from (page name ++ texture name) to the first-seen pixel bytes.  A
repeated key with different bytes is the fatal `ASSERT_MSG`, reporting
the new and the stored byte counts. -/
def confirm_go (tex_db : TextureDB) :
    List (Nat × DBTexture) → List (Str × List Nat) → Except Err Unit
  | [], _ => .ok ()
  | (_, t) :: rest, seen =>
    match tex_db.tpage_names.lookup t.page with
    | none => .error (.outOfRange "tpage_names.at(page)".data)
    | some pn =>
      match seen.lookup (pn ++ t.name) with
      | none => confirm_go tex_db rest ((pn ++ t.name, t.rgba_bytes) :: seen)
      | some stored =>
        if stored = t.rgba_bytes then confirm_go tex_db rest seen
        else .error (.badDuplicate (pn ++ t.name) t.rgba_bytes.length stored.length)

/-- `confirm_textures_identical`. -/
def confirm_textures_identical (tex_db : TextureDB) : Except Err Unit :=
  confirm_go tex_db tex_db.textures []

/-! ## Drawable-tree dispatcher (`extract_bsp_from_level`) -/

/-- One node of the partition root's forest.  The C++ code holds
`std::unique_ptr<DrawableTree>` values whose dynamic type is one of a
closed family; `my_type()` returns the stored type-tag string and each
branch `dynamic_cast`s to the expected class.  The tfrag family carries
its concrete tag string (one of eight in well-formed data). -/
inductive DrawableTree where
  | tfrag (kind : Str)
  | instanceTie
  | instanceShrub
  | collideFragment
  | other (ty : Str)
deriving DecidableEq, Repr

/-- `my_type()`. -/
def DrawableTree.my_type : DrawableTree → Str
  | .tfrag kind => kind
  | .instanceTie => "drawable-tree-instance-tie".data
  | .instanceShrub => "drawable-tree-instance-shrub".data
  | .collideFragment => "drawable-tree-collide-fragment".data
  | .other ty => ty

/-- `dynamic_cast<level_tools::DrawableTreeTfrag*>`. -/
def DrawableTree.asTfrag : DrawableTree → Option Unit
  | .tfrag _ => some ()
  | _ => none

/-- `dynamic_cast<level_tools::DrawableTreeInstanceTie*>`. -/
def DrawableTree.asTie : DrawableTree → Option Unit
  | .instanceTie => some ()
  | _ => none

/-- `dynamic_cast<level_tools::shrub_types::DrawableTreeInstanceShrub*>`. -/
def DrawableTree.asShrub : DrawableTree → Option Unit
  | .instanceShrub => some ()
  | _ => none

/-- `dynamic_cast<level_tools::DrawableTreeCollideFragment*>`. -/
def DrawableTree.asCollide : DrawableTree → Option Unit
  | .collideFragment => some ()
  | _ => none

/-- The eight recognized terrain-fragment tree tags (the `tfrag_trees`
set of the dispatch loop). -/
def tfrag_trees : List Str :=
  (["drawable-tree-tfrag", "drawable-tree-trans-tfrag", "drawable-tree-tfrag-trans",
    "drawable-tree-dirt-tfrag", "drawable-tree-tfrag-water", "drawable-tree-ice-tfrag",
    "drawable-tree-lowres-tfrag", "drawable-tree-lowres-trans-tfrag"] : List String).map
    String.data

/-- Decimal rendering of the shared tree-index counter for the
synthesized `fmt::format` identifiers. -/
def natStr (n : Nat) : Str := Nat.toDigits 10 n

/-- The dispatch loop's running state: the shared per-level tree-index
counter `i`, the `got_collide` flag, and the synthesized identifiers
handed to the (external) extractors, in call order. -/
structure DispatchState where
  i : Nat := 0
  got_collide : Bool := false
  jobs : List Str := []
deriving DecidableEq, Repr

/-- One iteration of the dispatch loop over `draw_tree`, matching
`my_type()` against the fixed vocabulary.  The per-kind extractors are
external; this models the `ASSERT`ed casts, the counter, the
at-most-one-collision invariant, and the synthesized identifiers.  The
unsupported case only logs. -/
def dispatch_tree (dgo_name : Str) (extract_collision : Bool)
    (st : DispatchState) (t : DrawableTree) : Except Err DispatchState :=
  if tfrag_trees.contains t.my_type then
    match t.asTfrag with
    | none => .error (.assertFail "ASSERT(as_tfrag_tree)".data)
    | some _ =>
      .ok { st with i := st.i + 1,
                    jobs := st.jobs ++ [dgo_name ++ "-".data ++ natStr st.i] }
  else if t.my_type == "drawable-tree-instance-tie".data then
    match t.asTie with
    | none => .error (.assertFail "ASSERT(as_tie_tree)".data)
    | some _ =>
      .ok { st with i := st.i + 1,
                    jobs := st.jobs ++ [dgo_name ++ "-".data ++ natStr st.i ++ "-tie".data] }
  else if t.my_type == "drawable-tree-instance-shrub".data then
    match t.asShrub with
    | none => .error (.assertFail "ASSERT(as_shrub_tree)".data)
    | some _ =>
      .ok { st with i := st.i + 1,
                    jobs := st.jobs ++ [dgo_name ++ "-".data ++ natStr st.i ++ "-shrub".data] }
  else if t.my_type == "drawable-tree-collide-fragment".data && extract_collision then
    match t.asCollide with
    | none => .error (.assertFail "ASSERT(as_collide_frags)".data)
    | some _ =>
      if st.got_collide then .error (.assertFail "ASSERT(!got_collide)".data)
      else
        .ok { st with i := st.i + 1, got_collide := true,
                      jobs := st.jobs ++ [dgo_name ++ "-".data ++ natStr st.i ++ "-collide".data] }
  else .ok st

/-- The second pass of `extract_bsp_from_level` as a loop: run the
dispatch step over the trees in stored order, stopping at the first
abort. -/
def dispatch_go (dgo_name : Str) (extract_collision : Bool) :
    DispatchState → List DrawableTree → Except Err DispatchState
  | st, [] => .ok st
  | st, t :: rest =>
    match dispatch_tree dgo_name extract_collision st t with
    | .error e => .error e
    | .ok st' => dispatch_go dgo_name extract_collision st' rest

/-- The dispatch loop started from a fresh state. -/
def dispatch_trees (dgo_name : Str) (extract_collision : Bool)
    (trees : List DrawableTree) : Except Err DispatchState :=
  dispatch_go dgo_name extract_collision {} trees

/-- `drawable_tree_array` of the decoded root: stored length field (C++
`int`, checked against the vector size) and the trees. -/
structure DrawableTreeArray where
  length : Int
  trees : List DrawableTree
deriving DecidableEq, Repr

/-- The decoded partition root (`level_tools::BspHeader`), as produced
by the external decoder `BspHeader::read_from_file`. -/
structure BspHeader where
  drawable_tree_array : DrawableTreeArray
  texture_remap_table : List (Nat × Nat)
  texture_flags : List Nat
deriving DecidableEq, Repr

/-! ## Archive database and orchestration -/

inductive GameVersion where
  | jak1
  | jak2
deriving DecidableEq, Repr

/-- What the database holds behind one record: the decoded object data
and the partition root the external decoder would produce from it. -/
structure ObjectFileData where
  linked_data : LinkedObjectFile
  bsp : BspHeader
deriving DecidableEq, Repr

/-- The archive database (`ObjectFileDB`): per-archive record lists, the
record-to-decoded-data lookup and the target version. -/
structure ObjectFileDB where
  obj_files_by_dgo : List (Str × List ObjectFileRecord)
  record_data : List (ObjectFileRecord × ObjectFileData)
  version : GameVersion
deriving DecidableEq, Repr

/-- `db.lookup_record(rec)`. -/
def lookup_record (db : ObjectFileDB) (rec : ObjectFileRecord) :
    Option ObjectFileData :=
  (db.record_data.find? (fun p => decide (p.1 = rec))).map (fun p => p.2)

/-- `db.obj_files_by_dgo.count(dgo_name)` (a `std::map`, so 0 or 1). -/
def dgo_count (db : ObjectFileDB) (dgo_name : Str) : Nat :=
  match db.obj_files_by_dgo.lookup dgo_name with
  | some _ => 1
  | none => 0

/-- Per-level override table (`DecompileHacks`): only
`missing_textures_by_level` is consulted here, and only to build an
argument for the external terrain extractor. -/
structure DecompileHacks where
  missing_textures_by_level : List (Str × List (Int × Int)) := []
deriving DecidableEq, Repr


/-- The `-ag` test of `extract_art_groups_from_level`:
`file.name.length() > 3 && !file.name.compare(file.name.length() - 3, 3, "-ag")`. -/
def agCond (f : ObjectFileRecord) : Bool :=
  3 < f.name.length && f.name.drop (f.name.length - 3) == "-ag".data

/-- Loop body of `extract_art_groups_from_level`: for an `-ag` record,
`lookup_record` (fatal if missing) and hand the file to the external
articulated-mesh extractor `extract_merc` (its geometry contribution to
the level is not modelled). -/
def art_group_step (db : ObjectFileDB) (lev : Level) (f : ObjectFileRecord) :
    Except Err Level :=
  if agCond f then
    match lookup_record db f with
    | none => .error (.outOfRange "lookup_record(file)".data)
    | some _ => .ok lev
  else .ok lev

/-- `extract_art_groups_from_level`. -/
def extract_art_groups_from_level (db : ObjectFileDB) (_tex_db : TextureDB)
    (_tex_remap : List (Nat × Nat)) (dgo_name : Str) (level_data : Level) :
    Except Err Level :=
  match db.obj_files_by_dgo.lookup dgo_name with
  | none => .error (.outOfRange "obj_files_by_dgo.at(dgo_name)".data)
  | some files => files.foldlM (art_group_step db) level_data

/-- `extract_bsp_from_level`: locate the root record (skip with an empty
remap table if absent), derive the level name by stripping the last four
characters, validate (`ASSERT(ok)`), decode the header (external),
`ASSERT` the tree-array length field, run the dispatch loop, set the
level name, and return the root's texture-remap table. -/
def extract_bsp_from_level (db : ObjectFileDB) (_tex_db : TextureDB)
    (dgo_name : Str) (_hacks : DecompileHacks) (extract_collision : Bool)
    (level_data : Level) : Except Err (List (Nat × Nat) × Level) :=
  match db.obj_files_by_dgo.lookup dgo_name with
  | none => .error (.outOfRange "obj_files_by_dgo.at(dgo_name)".data)
  | some records =>
    match get_bsp_file records dgo_name with
    | .error e => .error e
    | .ok none => .ok ([], level_data)
    | .ok (some bsp_rec) =>
      let level_name := base_name bsp_rec.name
      match lookup_record db bsp_rec with
      | none => .error (.outOfRange "lookup_record(bsp_rec)".data)
      | some bsp_file =>
        match is_valid_bsp bsp_file.linked_data with
        | .error e => .error e
        | .ok (some _) => .error (.assertFail "ASSERT(ok)".data)
        | .ok none =>
          let bsp_header := bsp_file.bsp
          if (bsp_header.drawable_tree_array.trees.length : Int) ≠
              bsp_header.drawable_tree_array.length then
            .error (.assertFail "ASSERT(trees.size() == length)".data)
          else
            match dispatch_trees dgo_name extract_collision
                bsp_header.drawable_tree_array.trees with
            | .error e => .error e
            | .ok _ =>
              .ok (bsp_header.texture_remap_table,
                   { level_data with level_name := level_name })

/-- `extract_common`: the textures-only pseudo-level.  Warn-and-skip if
the archive is absent or the pool is empty; otherwise verify texture
identity, populate textures, run art groups, and write
`<base>.fr3` (plus the debug glb when requested).  The result is the
list of written file names. -/
def extract_common (db : ObjectFileDB) (tex_db : TextureDB) (dgo_name : Str)
    (dump_levels : Bool) : Except Err (List Str) :=
  if dgo_count db dgo_name = 0 then .ok []
  else if tex_db.textures.length = 0 then .ok []
  else
    match confirm_textures_identical tex_db with
    | .error e => .error e
    | .ok _ =>
      match add_all_textures_from_level {} dgo_name tex_db with
      | .error e => .error e
      | .ok lev =>
        match extract_art_groups_from_level db tex_db [] dgo_name lev with
        | .error e => .error e
        | .ok _ =>
          .ok ([base_name dgo_name ++ ".fr3".data] ++
               (if dump_levels then ["glb_out/common.glb".data] else []))

/-- The anomalous block at the end of `extract_from_level`: after the
level's own output, the same compressed buffer is unconditionally
written under these fixed names, in this order (`TSZ.fr3` and `VI1.fr3`
appear twice). -/
def extra_write_names : List Str :=
  (["ATE.fr3", "ATO.fr3", "CAB.fr3", "CAP.fr3", "CAS.fr3", "CASCITY.fr3", "CASEXT.fr3",
    "CFA.fr3", "CFB.fr3", "CGA.fr3", "CGB.fr3", "CGC.fr3", "CIA.fr3", "CIB.fr3", "CMA.fr3",
    "CMB.fr3", "COA.fr3", "COB.fr3", "CPA.fr3", "CPO.fr3", "CTA.fr3", "CTB.fr3", "CTC.fr3",
    "CTYASHA.fr3", "CTYKORA.fr3", "CWI.fr3", "D3A.fr3", "D3B.fr3", "DEMO.fr3", "DG1.fr3",
    "DMI.fr3", "DRB.fr3", "DRI.fr3", "DRILLMTN.fr3", "FDA.fr3", "FDB.fr3", "FEA.fr3",
    "FEB.fr3", "FOB.fr3", "FOR.fr3", "FORDUMPC.fr3", "FORDUMPD.fr3", "FRA.fr3", "FRB.fr3",
    "GAME.fr3", "GARAGE.fr3", "GGA.fr3", "HALFPIPE.fr3", "HIDEOUT.fr3", "HIPHOG.fr3",
    "INTROCST.fr3", "KIOSK.fr3", "LASHGRD.fr3", "LASHTHRN.fr3", "LBBUSH.fr3", "LBOMBBOT.fr3",
    "LBRNERMK.fr3", "LCGUARD.fr3", "LCITYLOW.fr3", "LDJAKBRN.fr3", "LERLCHAL.fr3",
    "LERLTESS.fr3", "LERROL.fr3", "LGARCSTA.fr3", "LGUARD.fr3", "LHELLDOG.fr3", "LHIPOUT.fr3",
    "LINTCSTB.fr3", "LJAKDAX.fr3", "LJKDXASH.fr3", "LKEIRIFT.fr3", "LKIDDOGE.fr3",
    "LMEETBRT.fr3", "LOUTCSTB.fr3", "LPACKAGE.fr3", "LPORTRUN.fr3", "LPOWER.fr3",
    "LPROTECT.fr3", "LPRSNCST.fr3", "LPRTRACE.fr3", "LRACEBB.fr3", "LRACEBF.fr3",
    "LRACECB.fr3", "LRACECF.fr3", "LRACEDB.fr3", "LRACEDF.fr3", "LRACELIT.fr3", "LSACK.fr3",
    "LSAMERGD.fr3", "LSHUTTLE.fr3", "LSMYSBRT.fr3", "LTENTOB.fr3", "LTENTOUT.fr3", "LTESS.fr3",
    "LTHRNOUT.fr3", "LTRNKRKD.fr3", "LTRNTESS.fr3", "LTRNYSAM.fr3", "LWHACK.fr3", "LWIDEA.fr3",
    "LWIDEB.fr3", "LWIDEC.fr3", "LWIDESTA.fr3", "LYSAMSAM.fr3", "LYSKDCD.fr3", "MCN.fr3",
    "MTN.fr3", "MTX.fr3", "NEB.fr3", "NES.fr3", "NESTT.fr3", "ONINTENT.fr3", "ORACLE.fr3",
    "OUTROCST.fr3", "PAC.fr3", "PAE.fr3", "PALBOSS.fr3", "PALOUT.fr3", "PAR.fr3", "PAS.fr3",
    "PORTWALL.fr3", "PRI.fr3", "RUI.fr3", "SAG.fr3", "SEB.fr3", "SEW.fr3", "SKA.fr3",
    "STA.fr3", "STADBLMP.fr3", "STB.fr3", "STC.fr3", "STD.fr3", "STR.fr3", "SWB.fr3",
    "SWE.fr3", "TBO.fr3", "THR.fr3", "TITLE.fr3", "TOA.fr3", "TOB.fr3", "TOC.fr3", "TOD.fr3",
    "TOE.fr3", "TOMBEXT.fr3", "TSZ.fr3", "UNB.fr3", "UND.fr3", "VI1.fr3", "VIN.fr3", "BEA.fr3",
    "CIT.fr3", "DAR.fr3", "DEM.fr3", "FIC.fr3", "FIN.fr3", "INT.fr3", "JUB.fr3", "JUN.fr3",
    "LAV.fr3", "MAI.fr3", "MIS.fr3", "OGR.fr3", "ROB.fr3", "ROL.fr3", "SNO.fr3", "SUB.fr3",
    "SUN.fr3", "SWA.fr3", "TIT.fr3", "TRA.fr3", "TSZ.fr3", "VI1.fr3", "VI2.fr3", "VI3.fr3"] : List String).map String.data

/-- The guard of the snow/mist asset-borrowing branches:
`dgo_name != <other> && db.obj_files_by_dgo.count(dgo_name) == 0`. -/
def borrow_guard (db : ObjectFileDB) (dgo_name other_name : Str) : Bool :=
  decide (dgo_name ≠ other_name) && dgo_count db dgo_name == 0

/-- `extract_from_level`: the full-level packager.  Warn-and-skip if the
archive is absent; populate textures, extract the bsp, run art groups;
then the two (guarded) asset-borrowing branches, which return without
writing; otherwise serialize/compress (external) and write the level's
own `<base>.fr3`, the anomalous block of fixed-name copies, and the
optional debug glbs.  The result is the list of written file names. -/
def extract_from_level (db : ObjectFileDB) (tex_db : TextureDB)
    (dgo_name : Str) (hacks : DecompileHacks) (dump_level : Bool)
    (extract_collision : Bool) : Except Err (List Str) :=
  if dgo_count db dgo_name = 0 then .ok []
  else
    match add_all_textures_from_level {} dgo_name tex_db with
    | .error e => .error e
    | .ok lev0 =>
      match extract_bsp_from_level db tex_db dgo_name hacks extract_collision lev0 with
      | .error e => .error e
      | .ok (tex_remap, lev1) =>
        match extract_art_groups_from_level db tex_db tex_remap dgo_name lev1 with
        | .error e => .error e
        | .ok lev2 =>
          if borrow_guard db dgo_name "SNO.DGO".data then
            match extract_bsp_from_level db tex_db "SNO.DGO".data hacks
                extract_collision lev2 with
            | .error e => .error e
            | .ok (r2, lev3) =>
              match extract_art_groups_from_level db tex_db r2 "SNO.DGO".data lev3 with
              | .error e => .error e
              | .ok _ => .ok []
          else if borrow_guard db dgo_name "MIS.DGO".data then
            match extract_bsp_from_level db tex_db "MIS.DGO".data hacks
                extract_collision lev2 with
            | .error e => .error e
            | .ok (r2, lev3) =>
              match extract_art_groups_from_level db tex_db r2 "MIS.DGO".data lev3 with
              | .error e => .error e
              | .ok _ => .ok []
          else
            .ok ([base_name dgo_name ++ ".fr3".data] ++ extra_write_names ++
                 (if dump_level then
                    ["glb_out/".data ++ lev2.level_name ++ "_background.glb".data,
                     "glb_out/".data ++ lev2.level_name ++ "_foreground.glb".data]
                  else []))

/-! ## Concrete sample inputs -/

/-- A database holding one archive `TEST.DGO` with no records. -/
def sampleDb : ObjectFileDB :=
  { obj_files_by_dgo := [("TEST.DGO".data, [])], record_data := [], version := .jak1 }

/-- The empty texture pool. -/
def emptyTexDb : TextureDB :=
  { textures := [], texture_ids_per_level := [], tpage_names := [] }

/-! ## Lemmas about the BSP Locator -/

theorem get_bsp_loop_filter_nil (l : List ObjectFileRecord)
    (acc : Option ObjectFileRecord) (h : l.filter visCond = []) :
    get_bsp_loop l acc = .ok acc := by
  induction l generalizing acc with
  | nil => rfl
  | cons f rest ih =>
    simp only [List.filter_cons] at h
    by_cases hf : visCond f
    · simp [hf] at h
    · simp only [hf, if_neg, Bool.false_eq_true, if_false] at h
      simp only [get_bsp_loop, hf, Bool.false_eq_true, if_false]
      exact ih acc h

theorem get_bsp_loop_some_err (l : List ObjectFileRecord) (r : ObjectFileRecord)
    (h : l.filter visCond ≠ []) :
    get_bsp_loop l (some r) = .error (.assertFail "ASSERT(!found)".data) := by
  induction l with
  | nil => simp at h
  | cons f rest ih =>
    by_cases hf : visCond f
    · simp [get_bsp_loop, hf]
    · simp only [List.filter_cons, hf, Bool.false_eq_true, if_false] at h
      simp only [get_bsp_loop, hf, Bool.false_eq_true, if_false]
      exact ih h

theorem get_bsp_loop_single (l : List ObjectFileRecord) (r : ObjectFileRecord)
    (h : l.filter visCond = [r]) :
    get_bsp_loop l none = .ok (some r) := by
  induction l with
  | nil => simp at h
  | cons f rest ih =>
    by_cases hf : visCond f
    · simp only [List.filter_cons, hf, if_true] at h
      obtain ⟨rfl, h2⟩ := List.cons_eq_cons.mp h
      simp only [get_bsp_loop, hf, if_true, Option.isSome_none, Bool.false_eq_true,
        if_false]
      exact get_bsp_loop_filter_nil rest _ h2
    · simp only [List.filter_cons, hf, Bool.false_eq_true, if_false] at h
      simp only [get_bsp_loop, hf, Bool.false_eq_true, if_false]
      exact ih h

theorem get_bsp_loop_two (l : List ObjectFileRecord)
    (h : 2 ≤ (l.filter visCond).length) :
    get_bsp_loop l none = .error (.assertFail "ASSERT(!found)".data) := by
  induction l with
  | nil => simp at h
  | cons f rest ih =>
    by_cases hf : visCond f
    · simp only [List.filter_cons, hf, if_true, List.length_cons] at h
      have hne : rest.filter visCond ≠ [] := by
        intro hnil
        rw [hnil] at h
        simp at h
      simp only [get_bsp_loop, hf, if_true, Option.isSome_none, Bool.false_eq_true,
        if_false]
      exact get_bsp_loop_some_err rest f hne
    · simp only [List.filter_cons, hf, Bool.false_eq_true, if_false] at h
      simp only [get_bsp_loop, hf, Bool.false_eq_true, if_false]
      exact ih h

theorem get_bsp_loop_mem (l : List ObjectFileRecord) (acc : Option ObjectFileRecord)
    (r : ObjectFileRecord) (h : get_bsp_loop l acc = .ok (some r)) :
    r ∈ l ∨ acc = some r := by
  induction l generalizing acc with
  | nil =>
    simp only [get_bsp_loop, Except.ok.injEq] at h
    right
    rw [h]
  | cons f rest ih =>
    by_cases hf : visCond f
    · cases acc with
      | some a => simp [get_bsp_loop, hf] at h
      | none =>
        simp only [get_bsp_loop, hf, if_true, Option.isSome_none, Bool.false_eq_true,
          if_false] at h
        rcases ih (some f) h with hm | he
        · exact Or.inl (List.mem_cons_of_mem f hm)
        · have hfr : f = r := by injection he
          exact Or.inl (hfr ▸ List.mem_cons_self f rest)
    · simp only [get_bsp_loop, hf, Bool.false_eq_true, if_false] at h
      rcases ih acc h with hm | he
      · exact Or.inl (List.mem_cons_of_mem f hm)
      · exact Or.inr he

theorem get_bsp_fallback_mem (records : List ObjectFileRecord) (dgo_name : Str)
    (r : ObjectFileRecord) (h : get_bsp_fallback records dgo_name = some r) :
    r ∈ records := by
  unfold get_bsp_fallback at h
  by_cases hext : (endsWithL dgo_name ".DGO".data || endsWithL dgo_name ".CGO".data) = true
  · rw [if_pos hext] at h
    cases hl : records.getLast? with
    | none => rw [hl] at h; exact absurd h (by simp)
    | some last =>
      rw [hl] at h
      simp only [Option.some_bind] at h
      by_cases hm : (lowerBase dgo_name == last.name) = true
      · rw [if_pos hm] at h
        cases h
        exact List.mem_of_getLast?_eq_some hl
      · rw [if_neg hm] at h; exact absurd h (by simp)
  · rw [if_neg hext] at h; exact absurd h (by simp)

theorem get_bsp_file_mem (records : List ObjectFileRecord) (dgo_name : Str)
    (r : ObjectFileRecord) (h : get_bsp_file records dgo_name = .ok (some r)) :
    r ∈ records := by
  unfold get_bsp_file at h
  cases heq : get_bsp_loop records none with
  | error e =>
    simp only [heq] at h
    exact absurd h (by simp)
  | ok acc =>
    cases acc with
    | some x =>
      simp only [heq, Except.ok.injEq, Option.some.injEq] at h
      subst h
      rcases get_bsp_loop_mem records none x heq with hm | he
      · exact hm
      · exact absurd he (by simp)
    | none =>
      simp only [heq, Except.ok.injEq] at h
      exact get_bsp_fallback_mem records dgo_name r h

/-- `visCond` only accepts names ending in `-vis`. -/
theorem visCond_endsWith (f : ObjectFileRecord) (h : visCond f = true) :
    endsWithL f.name "-vis".data = true := by
  unfold visCond at h
  rw [Bool.and_eq_true] at h
  obtain ⟨-, hsuf⟩ := h
  have hdrop : f.name.drop (f.name.length - 4) = "-vis".data := by
    exact eq_of_beq hsuf
  unfold endsWithL
  rw [List.isSuffixOf_iff_suffix]
  exact ⟨f.name.take (f.name.length - 4), by rw [← hdrop]; exact List.take_append_drop _ _⟩

/-! ## Claim theorems: BSP Locator -/

/-- C5 (amended): for a record list in which exactly one record
satisfies the locator's `-vis` test (name longer than four characters
and ending in `-vis`), `get_bsp_file` returns that record regardless of
its position; with two or more such records it aborts on the
`ASSERT(!found)` rather than silently picking one. -/
theorem c5_locator_unique_vis (records : List ObjectFileRecord) (dgo_name : Str) :
    (∀ r, records.filter visCond = [r] →
      get_bsp_file records dgo_name = .ok (some r)) ∧
    (2 ≤ (records.filter visCond).length →
      get_bsp_file records dgo_name = .error (.assertFail "ASSERT(!found)".data)) := by
  constructor
  · intro r h
    unfold get_bsp_file
    rw [get_bsp_loop_single records r h]
  · intro h
    unfold get_bsp_file
    rw [get_bsp_loop_two records h]

theorem c5_locator_unique_vis_witness :
    get_bsp_file [⟨"tpage-11".data⟩, ⟨"test-vis".data⟩, ⟨"foo-ag".data⟩]
      "TEST.DGO".data = .ok (some ⟨"test-vis".data⟩) :=
  (c5_locator_unique_vis _ _).1 _ (by decide)

/-- C5 (counterexample): the record named exactly `-vis` ends in `-vis`,
yet the locator does not return it (the code requires the name to be
strictly longer than four characters), so the claim as stated fails. -/
theorem c5_counterexample :
    endsWithL ("-vis".data) ("-vis".data) = true ∧
    get_bsp_file [⟨"-vis".data⟩] "X".data = .ok none :=
  ⟨rfl, rfl⟩

/-- C6 (confirmed): with no `-vis`-suffixed record and an archive name
that either lacks both container extensions or whose stripped,
lower-cased form differs from the last record's name, the locator
reports "not found". -/
theorem c6_locator_not_found (records : List ObjectFileRecord) (dgo_name : Str)
    (h1 : ∀ f ∈ records, endsWithL f.name "-vis".data = false)
    (h2 : (endsWithL dgo_name ".DGO".data = false ∧
           endsWithL dgo_name ".CGO".data = false) ∨
          (∀ last, records.getLast? = some last → lowerBase dgo_name ≠ last.name)) :
    get_bsp_file records dgo_name = .ok none := by
  have hfilter : records.filter visCond = [] := by
    rw [List.filter_eq_nil_iff]
    intro f hf hvis
    have := visCond_endsWith f hvis
    rw [h1 f hf] at this
    exact absurd this (by simp)
  have hfb : get_bsp_fallback records dgo_name = none := by
    unfold get_bsp_fallback
    rcases h2 with ⟨hd, hc⟩ | hlast
    · rw [hd, hc]
      rfl
    · by_cases hext : (endsWithL dgo_name ".DGO".data ||
          endsWithL dgo_name ".CGO".data) = true
      · rw [if_pos hext]
        cases hl : records.getLast? with
        | none => rfl
        | some last =>
          have hne : lowerBase dgo_name ≠ last.name := hlast last hl
          simp only [Option.some_bind]
          rw [if_neg (by simpa using hne)]
      · rw [if_neg hext]
  unfold get_bsp_file
  rw [get_bsp_loop_filter_nil records none hfilter, hfb]

theorem c6_locator_not_found_witness :
    get_bsp_file [⟨"water-an".data⟩, ⟨"tpage-2".data⟩] "TEST".data = .ok none :=
  c6_locator_not_found _ _ (by decide) (Or.inl (by decide))

/-- C10 (counterexample): via the fallback heuristic the record `dem` of
archive `DEM.DGO` is located as the partition root, but the derived
level name is `dem` itself, not the name with its last four characters
removed (which would be empty): `substr(0, length() - 4)` wraps for
names shorter than four characters. -/
theorem c10_counterexample :
    get_bsp_file [⟨"dem".data⟩] "DEM.DGO".data = .ok (some ⟨"dem".data⟩) ∧
    base_name "dem".data = "dem".data ∧
    ("dem".data).take (("dem".data).length - 4) ≠ "dem".data :=
  ⟨rfl, rfl, by decide⟩

/-- C10 (amended): for a partition root located via the name-heuristic
fallback, when the record name has at least four characters the derived
level name is the record name with its last four characters removed —
the same stripping applied to `-vis` roots, so four real characters of
the name are lost; names shorter than four characters are kept whole
(`size_t` wrap-around in `substr`). -/
theorem c10_fallback_strips_four (records : List ObjectFileRecord)
    (dgo_name : Str) (r : ObjectFileRecord)
    (hnov : records.filter visCond = [])
    (hfound : get_bsp_file records dgo_name = .ok (some r))
    (hlen : 4 ≤ r.name.length) :
    base_name r.name = r.name.take (r.name.length - 4) ∧
    (base_name r.name).length + 4 = r.name.length ∧
    visCond r = false := by
  have hbase : base_name r.name = r.name.take (r.name.length - 4) := by
    unfold base_name
    rw [if_pos hlen]
  refine ⟨hbase, ?_, ?_⟩
  · rw [hbase]
    simp only [List.length_take]
    omega
  · have hmem := get_bsp_file_mem records dgo_name r hfound
    rw [List.filter_eq_nil_iff] at hnov
    exact Bool.eq_false_iff.mpr (hnov r hmem)

theorem c10_fallback_strips_four_witness :
    base_name ("demo".data) = ("demo".data).take (("demo".data).length - 4) ∧
    (base_name ("demo".data)).length + 4 = ("demo".data).length ∧
    visCond ⟨"demo".data⟩ = false :=
  c10_fallback_strips_four [⟨"demo".data⟩] "DEMO.DGO".data ⟨"demo".data⟩
    (by decide) rfl (by decide)

/-! ## Claim theorems: BSP Validator -/

/-- C7 (confirmed): `is_valid_bsp` returns false with the specific
logged reason for each individually violated check, tested in order —
segment count different from one; first word of the first segment not a
type-tag word; type-tag symbol name different from `bsp-header` — and
returns true when all three checks pass. -/
theorem c7_validator_checks (file : LinkedObjectFile) :
    (file.segments ≠ 1 →
      is_valid_bsp file = .ok (some (.badSegmentCount file.segments))) ∧
    (∀ w, file.segments = 1 →
      (file.words_by_seg.get? 0).bind (fun seg => seg.get? 0) = some w →
      w.isTypePtr = false →
      is_valid_bsp file = .ok (some .firstWordNotTypePtr)) ∧
    (∀ s, file.segments = 1 →
      (file.words_by_seg.get? 0).bind (fun seg => seg.get? 0) = some (.typePtr s) →
      s ≠ "bsp-header".data →
      is_valid_bsp file = .ok (some (.wrongTypeName s))) ∧
    (file.segments = 1 →
      (file.words_by_seg.get? 0).bind (fun seg => seg.get? 0) =
        some (.typePtr "bsp-header".data) →
      is_valid_bsp file = .ok none) := by
  refine ⟨?_, ?_, ?_, ?_⟩
  · intro h
    unfold is_valid_bsp
    rw [if_pos h]
  · intro w h1 h2 hw
    unfold is_valid_bsp
    rw [if_neg (by simp [h1]), h2]
    simp [hw]
  · intro s h1 h2 hs
    unfold is_valid_bsp
    rw [if_neg (by simp [h1]), h2]
    simp only [LinkedWord.isTypePtr, not_true, if_false, LinkedWord.symbol_name]
    rw [if_pos hs]
  · intro h1 h2
    unfold is_valid_bsp
    rw [if_neg (by simp [h1]), h2]
    simp [LinkedWord.isTypePtr, LinkedWord.symbol_name]

theorem c7_validator_checks_witness :
    is_valid_bsp ⟨2, [[]]⟩ = .ok (some (.badSegmentCount 2)) ∧
    is_valid_bsp ⟨1, [[.plainData 0]]⟩ = .ok (some .firstWordNotTypePtr) ∧
    is_valid_bsp ⟨1, [[.typePtr "oracle".data]]⟩ =
      .ok (some (.wrongTypeName "oracle".data)) ∧
    is_valid_bsp ⟨1, [[.typePtr "bsp-header".data]]⟩ = .ok none :=
  ⟨(c7_validator_checks ⟨2, [[]]⟩).1 (by decide),
   (c7_validator_checks ⟨1, [[.plainData 0]]⟩).2.1 _ rfl rfl rfl,
   (c7_validator_checks ⟨1, [[.typePtr "oracle".data]]⟩).2.2.1 _ rfl rfl (by decide),
   (c7_validator_checks ⟨1, [[.typePtr "bsp-header".data]]⟩).2.2.2 rfl rfl⟩

/-! ## Claim theorems: texture population -/

/-- C8 (confirmed): populating an output level whose texture list is
already non-empty fails the `ASSERT` precondition; populating an empty
one from a level name absent in the pool's level index returns normally
with the list still empty. -/
theorem c8_texture_population (lev : Level) (level_name : Str) (tex_db : TextureDB) :
    (lev.textures ≠ [] →
      add_all_textures_from_level lev level_name tex_db =
        .error (.assertFail "ASSERT(lev.textures.empty())".data)) ∧
    (lev.textures = [] →
      tex_db.texture_ids_per_level.lookup level_name = none →
      add_all_textures_from_level lev level_name tex_db = .ok lev) := by
  constructor
  · intro h
    unfold add_all_textures_from_level
    rw [if_neg (by simpa using h)]
  · intro h hid
    unfold add_all_textures_from_level
    rw [if_pos (by simpa using h), hid]

theorem c8_texture_population_witness :
    add_all_textures_from_level
      { level_name := [], textures := [⟨7, 4, 4, [], [], [], true⟩] }
      "test".data emptyTexDb =
      .error (.assertFail "ASSERT(lev.textures.empty())".data) ∧
    add_all_textures_from_level {} "test".data emptyTexDb = .ok {} :=
  ⟨(c8_texture_population _ _ _).1 (by decide),
   (c8_texture_population {} "test".data emptyTexDb).2 rfl rfl⟩

/-! ## Claim theorems: texture identity verification -/

/-- The deduplication key of `confirm_textures_identical`:
`tpage_names.at(page)` (fatal if missing) concatenated with the texture
name. -/
def texKey (tex_db : TextureDB) (t : DBTexture) : Option Str :=
  (tex_db.tpage_names.lookup t.page).map (fun pn => pn ++ t.name)

/-- Key consistency of two pool entries: equal keys force equal pixel
bytes. -/
def SameKeyConsistent (tex_db : TextureDB) (t u : DBTexture) : Prop :=
  ∀ k, texKey tex_db t = some k → texKey tex_db u = some k →
    t.rgba_bytes = u.rgba_bytes

theorem lookup_cons_self {β : Type} (a : Str) (b : β) (l : List (Str × β)) :
    ((a, b) :: l).lookup a = some b := by
  simp [List.lookup]

theorem lookup_cons_ne {β : Type} (k a : Str) (b : β) (l : List (Str × β))
    (h : a ≠ k) : ((a, b) :: l).lookup k = l.lookup k := by
  have hb : (k == a) = false := beq_eq_false_iff_ne.mpr (fun he => h he.symm)
  simp [List.lookup, hb]

theorem texKey_of_page (tex_db : TextureDB) (t : DBTexture) (pn : Str)
    (hpn : tex_db.tpage_names.lookup t.page = some pn) :
    texKey tex_db t = some (pn ++ t.name) := by
  unfold texKey
  rw [hpn]
  rfl

theorem confirm_go_ok_sound (tex_db : TextureDB) (l : List (Nat × DBTexture)) :
    ∀ seen, confirm_go tex_db l seen = .ok () →
    (∀ k b, seen.lookup k = some b →
      ∀ p ∈ l, texKey tex_db p.2 = some k → p.2.rgba_bytes = b) ∧
    l.Pairwise (fun p q => SameKeyConsistent tex_db p.2 q.2) := by
  induction l with
  | nil =>
    intro seen _
    exact ⟨fun k b _ p hp => absurd hp (List.not_mem_nil p), List.Pairwise.nil⟩
  | cons hd rest ih =>
    intro seen h
    obtain ⟨i, t⟩ := hd
    unfold confirm_go at h
    cases hpn : tex_db.tpage_names.lookup t.page with
    | none =>
      simp only [hpn] at h
      exact absurd h (by simp)
    | some pn =>
      simp only [hpn] at h
      have hkt : texKey tex_db t = some (pn ++ t.name) := texKey_of_page _ _ _ hpn
      cases hseen : seen.lookup (pn ++ t.name) with
      | none =>
        simp only [hseen] at h
        obtain ⟨hinv, hpair⟩ := ih _ h
        constructor
        · intro k b hk p hp hkey
          rcases List.mem_cons.mp hp with rfl | hp'
          · have hkk : k = pn ++ t.name := by
              rw [hkt] at hkey
              exact (Option.some_inj.mp hkey).symm
            rw [hkk, hseen] at hk
            exact absurd hk (by simp)
          · have hne : (pn ++ t.name) ≠ k := by
              intro he
              rw [← he, hseen] at hk
              exact absurd hk (by simp)
            exact hinv k b (by rw [lookup_cons_ne k _ _ _ hne]; exact hk) p hp' hkey
        · refine List.pairwise_cons.mpr ⟨?_, hpair⟩
          intro q hq k0 hk0t hk0q
          have hk0 : k0 = pn ++ t.name := by
            rw [hkt] at hk0t
            exact (Option.some_inj.mp hk0t).symm
          have hqb : q.2.rgba_bytes = t.rgba_bytes := by
            apply hinv k0 t.rgba_bytes _ q hq hk0q
            rw [hk0]
            exact lookup_cons_self _ _ _
          exact hqb.symm
      | some stored =>
        simp only [hseen] at h
        by_cases hok : stored = t.rgba_bytes
        · rw [if_pos hok] at h
          obtain ⟨hinv, hpair⟩ := ih _ h
          constructor
          · intro k b hk p hp hkey
            rcases List.mem_cons.mp hp with rfl | hp'
            · have hkk : k = pn ++ t.name := by
                rw [hkt] at hkey
                exact (Option.some_inj.mp hkey).symm
              rw [hkk, hseen] at hk
              have hb : b = stored := (Option.some_inj.mp hk).symm
              rw [hb, ← hok]
            · exact hinv k b hk p hp' hkey
          · refine List.pairwise_cons.mpr ⟨?_, hpair⟩
            intro q hq k0 hk0t hk0q
            have hk0 : k0 = pn ++ t.name := by
              rw [hkt] at hk0t
              exact (Option.some_inj.mp hk0t).symm
            have hqb : q.2.rgba_bytes = stored := by
              apply hinv k0 stored _ q hq hk0q
              rw [hk0]
              exact hseen
            rw [hqb]
            exact hok.symm
        · rw [if_neg hok] at h
          exact absurd h (by simp)

theorem confirm_go_ok_complete (tex_db : TextureDB) (l : List (Nat × DBTexture)) :
    ∀ seen,
    (∀ p ∈ l, (texKey tex_db p.2).isSome) →
    (∀ k b, seen.lookup k = some b →
      ∀ p ∈ l, texKey tex_db p.2 = some k → p.2.rgba_bytes = b) →
    l.Pairwise (fun p q => SameKeyConsistent tex_db p.2 q.2) →
    confirm_go tex_db l seen = .ok () := by
  induction l with
  | nil => intro seen _ _ _; rfl
  | cons hd rest ih =>
    intro seen hpages hinv hpair
    obtain ⟨i, t⟩ := hd
    have hpt : (texKey tex_db t).isSome := hpages (i, t) (List.mem_cons_self _ _)
    cases hpn : tex_db.tpage_names.lookup t.page with
    | none =>
      unfold texKey at hpt
      rw [hpn] at hpt
      simp at hpt
    | some pn =>
      have hkt : texKey tex_db t = some (pn ++ t.name) := texKey_of_page _ _ _ hpn
      obtain ⟨hhead, hrest⟩ := List.pairwise_cons.mp hpair
      unfold confirm_go
      simp only [hpn]
      cases hseen : seen.lookup (pn ++ t.name) with
      | none =>
        simp only [hseen]
        apply ih _ (fun p hp => hpages p (List.mem_cons_of_mem _ hp)) ?_ hrest
        intro k b hk q hq hkeyq
        by_cases hkk : k = pn ++ t.name
        · have hb : b = t.rgba_bytes := by
            rw [hkk, lookup_cons_self] at hk
            exact (Option.some_inj.mp hk).symm
          have htq : t.rgba_bytes = q.2.rgba_bytes :=
            hhead q hq k (by rw [hkt, hkk]) hkeyq
          rw [hb, ← htq]
        · have hk' : seen.lookup k = some b := by
            rw [lookup_cons_ne k _ _ _ (fun he => hkk he.symm)] at hk
            exact hk
          exact hinv k b hk' q (List.mem_cons_of_mem _ hq) hkeyq
      | some stored =>
        simp only [hseen]
        have hts : t.rgba_bytes = stored :=
          hinv (pn ++ t.name) stored hseen (i, t) (List.mem_cons_self _ _) hkt
        rw [if_pos hts.symm]
        exact ih _ (fun p hp => hpages p (List.mem_cons_of_mem _ hp))
          (fun k b hk q hq hkeyq => hinv k b hk q (List.mem_cons_of_mem _ hq) hkeyq)
          hrest

theorem confirm_go_err_shape (tex_db : TextureDB) (l : List (Nat × DBTexture)) :
    ∀ seen e,
    (∀ p ∈ l, (texKey tex_db p.2).isSome) →
    confirm_go tex_db l seen = .error e →
    ∃ nm n m, e = .badDuplicate nm n m := by
  induction l with
  | nil =>
    intro seen e _ h
    exact absurd h (by simp [confirm_go])
  | cons hd rest ih =>
    intro seen e hpages h
    obtain ⟨i, t⟩ := hd
    have hpt : (texKey tex_db t).isSome := hpages (i, t) (List.mem_cons_self _ _)
    cases hpn : tex_db.tpage_names.lookup t.page with
    | none =>
      unfold texKey at hpt
      rw [hpn] at hpt
      simp at hpt
    | some pn =>
      unfold confirm_go at h
      simp only [hpn] at h
      cases hseen : seen.lookup (pn ++ t.name) with
      | none =>
        simp only [hseen] at h
        exact ih _ e (fun p hp => hpages p (List.mem_cons_of_mem _ hp)) h
      | some stored =>
        simp only [hseen] at h
        by_cases hok : stored = t.rgba_bytes
        · rw [if_pos hok] at h
          exact ih _ e (fun p hp => hpages p (List.mem_cons_of_mem _ hp)) h
        · rw [if_neg hok] at h
          refine ⟨pn ++ t.name, t.rgba_bytes.length, stored.length, ?_⟩
          injection h with h1
          exact h1.symm

/-- C9 (confirmed): with every texture's page name present, entries that
are pairwise key-consistent (equal keys imply byte-identical pixels)
pass verification silently; two entries sharing a key with different
bytes make verification abort with the `ASSERT_MSG` that reports both
byte lengths. -/
theorem c9_texture_identity (tex_db : TextureDB)
    (hpages : ∀ p ∈ tex_db.textures, (texKey tex_db p.2).isSome) :
    (tex_db.textures.Pairwise (fun p q => SameKeyConsistent tex_db p.2 q.2) →
      confirm_textures_identical tex_db = .ok ()) ∧
    (∀ p q, List.Sublist [p, q] tex_db.textures →
      texKey tex_db p.2 = texKey tex_db q.2 →
      p.2.rgba_bytes ≠ q.2.rgba_bytes →
      ∃ nm n m,
        confirm_textures_identical tex_db = .error (.badDuplicate nm n m)) := by
  constructor
  · intro hpair
    apply confirm_go_ok_complete tex_db _ [] hpages ?_ hpair
    intro k b hk
    exact absurd hk (by simp [List.lookup])
  · intro p q hsub hkey hbytes
    cases hres : confirm_textures_identical tex_db with
    | ok u =>
      cases u
      exfalso
      have hpair := (confirm_go_ok_sound tex_db _ [] hres).2
      have hpq := (List.pairwise_cons.mp (hpair.sublist hsub)).1 q
        (List.mem_cons_self _ _)
      obtain ⟨k, hk⟩ := Option.isSome_iff_exists.mp
        (hpages p (hsub.subset (List.mem_cons_self _ _)))
      exact hbytes (hpq k hk (hkey ▸ hk))
    | error e =>
      obtain ⟨nm, n, m, he⟩ := confirm_go_err_shape tex_db _ [] e hpages hres
      exact ⟨nm, n, m, by rw [he]⟩

/-- A pool with two entries that collapse to the same key `pg-a` but
hold different pixel bytes. -/
def dupTexDb : TextureDB :=
  { textures := [(1, ⟨0, "a".data, 1, 1, [1, 2]⟩), (2, ⟨0, "a".data, 1, 1, [1, 3]⟩)],
    texture_ids_per_level := [],
    tpage_names := [(0, "pg-".data)] }

theorem c9_texture_identity_witness :
    ∃ nm n m,
      confirm_textures_identical dupTexDb = .error (.badDuplicate nm n m) :=
  (c9_texture_identity dupTexDb (by decide)).2
    (1, ⟨0, "a".data, 1, 1, [1, 2]⟩) (2, ⟨0, "a".data, 1, 1, [1, 3]⟩)
    (List.Sublist.refl _) (by decide) (by decide)

/-! ## Claim theorems: dispatcher collision invariant -/

/-- A tree that enters the collision branch: its tag is the
collision-fragment type string. -/
def isCollideTree (t : DrawableTree) : Bool :=
  t.my_type == "drawable-tree-collide-fragment".data

/-- A tree whose tag string agrees with its dynamic type, so that the
dispatch branch selected by the tag can `dynamic_cast` it successfully
(the decoder only produces such trees). -/
def wellTagged : DrawableTree → Bool
  | .tfrag kind => tfrag_trees.contains kind
  | .other ty =>
      !(tfrag_trees.contains ty) &&
      !(ty == "drawable-tree-instance-tie".data) &&
      !(ty == "drawable-tree-instance-shrub".data) &&
      !(ty == "drawable-tree-collide-fragment".data)
  | _ => true

theorem dispatch_tree_not_collide (dgo_name : Str) (ec : Bool) (st : DispatchState)
    (t : DrawableTree) (hw : wellTagged t = true) (hnc : isCollideTree t = false) :
    ∃ st', dispatch_tree dgo_name ec st t = .ok st' ∧
      st'.got_collide = st.got_collide := by
  cases t with
  | tfrag kind =>
    have hc : tfrag_trees.contains kind = true := hw
    have hm : kind ∈ tfrag_trees := by simpa using hc
    refine ⟨{ st with
              i := st.i + 1,
              jobs := st.jobs ++ [dgo_name ++ "-".data ++ natStr st.i] }, ?_, rfl⟩
    simp [dispatch_tree, DrawableTree.my_type, hm, DrawableTree.asTfrag]
  | instanceTie => exact ⟨_, rfl, rfl⟩
  | instanceShrub => exact ⟨_, rfl, rfl⟩
  | collideFragment => exact absurd hnc (by decide)
  | other ty =>
    have hw' := hw
    unfold wellTagged at hw'
    rw [Bool.and_eq_true, Bool.and_eq_true, Bool.and_eq_true] at hw'
    obtain ⟨⟨⟨ha, hb⟩, hc⟩, hd⟩ := hw'
    rw [Bool.not_eq_true'] at ha hb hc hd
    have hm : ty ∉ tfrag_trees := by simpa using ha
    refine ⟨st, ?_, rfl⟩
    simp [dispatch_tree, DrawableTree.my_type, hm, hb, hc, hd]

theorem dispatch_tree_collide (dgo_name : Str) (st : DispatchState) :
    dispatch_tree dgo_name true st .collideFragment =
      (if st.got_collide then .error (.assertFail "ASSERT(!got_collide)".data)
       else .ok { st with
                  i := st.i + 1,
                  got_collide := true,
                  jobs := st.jobs ++
                    [dgo_name ++ "-".data ++ natStr st.i ++ "-collide".data] }) := rfl

theorem wellTagged_collide (t : DrawableTree) (hw : wellTagged t = true)
    (hc : isCollideTree t = true) : t = .collideFragment := by
  cases t with
  | tfrag kind =>
    have hk : kind = "drawable-tree-collide-fragment".data :=
      eq_of_beq (by simpa [isCollideTree, DrawableTree.my_type] using hc)
    rw [hk] at hw
    exact absurd hw (by decide)
  | instanceTie => exact absurd hc (by decide)
  | instanceShrub => exact absurd hc (by decide)
  | collideFragment => rfl
  | other ty =>
    exfalso
    unfold wellTagged at hw
    rw [Bool.and_eq_true] at hw
    have hd : (ty == "drawable-tree-collide-fragment".data) = false := by
      rw [Bool.not_eq_true'] at hw
      exact hw.2
    have hc' : (ty == "drawable-tree-collide-fragment".data) = true := by
      simpa [isCollideTree, DrawableTree.my_type] using hc
    rw [hd] at hc'
    exact absurd hc' (by decide)

theorem dispatch_go_cases (dgo_name : Str) (l : List DrawableTree) :
    ∀ st : DispatchState, (∀ t ∈ l, wellTagged t = true) →
    (l.countP isCollideTree = 0 →
      ∃ st', dispatch_go dgo_name true st l = .ok st' ∧
        st'.got_collide = st.got_collide) ∧
    (1 ≤ l.countP isCollideTree → st.got_collide = true →
      dispatch_go dgo_name true st l =
        .error (.assertFail "ASSERT(!got_collide)".data)) ∧
    (l.countP isCollideTree = 1 → st.got_collide = false →
      ∃ st', dispatch_go dgo_name true st l = .ok st' ∧
        st'.got_collide = true) ∧
    (2 ≤ l.countP isCollideTree → st.got_collide = false →
      dispatch_go dgo_name true st l =
        .error (.assertFail "ASSERT(!got_collide)".data)) := by
  induction l with
  | nil =>
    intro st _
    refine ⟨fun _ => ⟨st, rfl, rfl⟩, ?_, ?_, ?_⟩
    · intro h _
      simp [List.countP_nil] at h
    · intro h _
      simp [List.countP_nil] at h
    · intro h _
      simp [List.countP_nil] at h
  | cons t rest ih =>
    intro st hw
    have hwt : wellTagged t = true := hw t (List.mem_cons_self _ _)
    have hwrest : ∀ u ∈ rest, wellTagged u = true :=
      fun u hu => hw u (List.mem_cons_of_mem _ hu)
    by_cases hct : isCollideTree t = true
    · have hcol : t = .collideFragment := wellTagged_collide t hwt hct
      subst hcol
      have hcount : (DrawableTree.collideFragment :: rest).countP isCollideTree =
          rest.countP isCollideTree + 1 := by
        rw [List.countP_cons]
        simp [isCollideTree, DrawableTree.my_type]
      refine ⟨?_, ?_, ?_, ?_⟩
      · intro h0
        rw [hcount] at h0
        omega
      · intro _ hg
        simp only [dispatch_go, dispatch_tree_collide, hg, if_true]
      · intro h1 hg
        rw [hcount] at h1
        have hrest0 : rest.countP isCollideTree = 0 := by omega
        simp only [dispatch_go, dispatch_tree_collide, hg, Bool.false_eq_true, if_false]
        obtain ⟨st', hok, hgot⟩ := (ih _ hwrest).1 hrest0
        exact ⟨st', hok, hgot⟩
      · intro h2 hg
        rw [hcount] at h2
        have hrest1 : 1 ≤ rest.countP isCollideTree := by omega
        simp only [dispatch_go, dispatch_tree_collide, hg, Bool.false_eq_true, if_false]
        exact (ih _ hwrest).2.1 hrest1 rfl
    · have hct' : isCollideTree t = false := Bool.eq_false_iff.mpr hct
      have hcount : (t :: rest).countP isCollideTree = rest.countP isCollideTree := by
        rw [List.countP_cons]
        simp [hct']
      obtain ⟨st', hstep, hgot⟩ :=
        dispatch_tree_not_collide dgo_name true st t hwt hct'
      refine ⟨?_, ?_, ?_, ?_⟩
      · intro h0
        rw [hcount] at h0
        simp only [dispatch_go, hstep]
        obtain ⟨st'', hok, hgot'⟩ := (ih st' hwrest).1 h0
        exact ⟨st'', hok, by rw [hgot', hgot]⟩
      · intro h1 hg
        rw [hcount] at h1
        simp only [dispatch_go, hstep]
        exact (ih st' hwrest).2.1 h1 (by rw [hgot, hg])
      · intro h1 hg
        rw [hcount] at h1
        simp only [dispatch_go, hstep]
        exact (ih st' hwrest).2.2.1 h1 (by rw [hgot, hg])
      · intro h2 hg
        rw [hcount] at h2
        simp only [dispatch_go, hstep]
        exact (ih st' hwrest).2.2.2 h2 (by rw [hgot, hg])

/-- C4 (confirmed): dispatching over a validated root with collision
extraction enabled and well-tagged trees — a root with zero
collision-fragment trees aborts nothing; exactly one is processed
successfully (the flag ends true); a second collision-fragment tree
aborts fatally on `ASSERT(!got_collide)`. -/
theorem c4_collision_invariant (dgo_name : Str) (trees : List DrawableTree)
    (hw : ∀ t ∈ trees, wellTagged t = true) :
    (trees.countP isCollideTree = 0 →
      ∃ st, dispatch_trees dgo_name true trees = .ok st ∧ st.got_collide = false) ∧
    (trees.countP isCollideTree = 1 →
      ∃ st, dispatch_trees dgo_name true trees = .ok st ∧ st.got_collide = true) ∧
    (2 ≤ trees.countP isCollideTree →
      dispatch_trees dgo_name true trees =
        .error (.assertFail "ASSERT(!got_collide)".data)) := by
  have h := dispatch_go_cases dgo_name trees {} hw
  exact ⟨h.1, fun h1 => h.2.2.1 h1 rfl, fun h2 => h.2.2.2 h2 rfl⟩

theorem c4_collision_invariant_witness :
    (∃ st, dispatch_trees "TEST.DGO".data true
      [.collideFragment, .tfrag "drawable-tree-tfrag".data] = .ok st ∧
      st.got_collide = true) ∧
    dispatch_trees "TEST.DGO".data true [.collideFragment, .collideFragment] =
      .error (.assertFail "ASSERT(!got_collide)".data) :=
  ⟨(c4_collision_invariant "TEST.DGO".data
      [.collideFragment, .tfrag "drawable-tree-tfrag".data] (by decide)).2.1 (by decide),
   (c4_collision_invariant "TEST.DGO".data
      [.collideFragment, .collideFragment] (by decide)).2.2 (by decide)⟩

/-! ## Claim theorems: dead asset-borrowing branches -/

/-- C3 (confirmed): once the top-level archive-present check of
`extract_from_level` has passed (`count(dgo_name) != 0`), the guards of
the snow (`SNO.DGO`) and mist (`MIS.DGO`) asset-borrowing branches —
which require `count(dgo_name) == 0` — are false, so the branches are
never entered and no neighboring level's art groups are merged. -/
theorem c3_borrow_branches_dead (db : ObjectFileDB) (dgo_name : Str)
    (h : dgo_count db dgo_name ≠ 0) :
    borrow_guard db dgo_name "SNO.DGO".data = false ∧
    borrow_guard db dgo_name "MIS.DGO".data = false := by
  have hz : (dgo_count db dgo_name == 0) = false := by
    simpa using h
  unfold borrow_guard
  rw [hz]
  simp

theorem c3_borrow_branches_dead_witness :
    borrow_guard sampleDb "TEST.DGO".data "SNO.DGO".data = false ∧
    borrow_guard sampleDb "TEST.DGO".data "MIS.DGO".data = false :=
  c3_borrow_branches_dead sampleDb "TEST.DGO".data (by decide)

/-! ## Claim theorems: packager pool handling and outputs -/

theorem get_bsp_fallback_nil (dgo_name : Str) :
    get_bsp_fallback [] dgo_name = none := by
  unfold get_bsp_fallback
  by_cases h : (endsWithL dgo_name ".DGO".data || endsWithL dgo_name ".CGO".data) = true
  · rw [if_pos h]
    rfl
  · rw [if_neg h]

theorem get_bsp_file_nil (dgo_name : Str) :
    get_bsp_file [] dgo_name = .ok none := by
  have hstep : get_bsp_file [] dgo_name = .ok (get_bsp_fallback [] dgo_name) := rfl
  rw [hstep, get_bsp_fallback_nil]

/-- C2 (counterexample): with `TEST.DGO` present in the input and a
completely empty texture pool, the full-level packager does not skip —
it proceeds all the way to writing its output files (the claim predicts
warn-and-skip with no output artifact, after a texture-identity
verification that this code path never performs). -/
theorem c2_counterexample :
    extract_from_level sampleDb emptyTexDb "TEST.DGO".data {} false false =
      .ok ("TEST.fr3".data :: extra_write_names) ∧
    "TEST.fr3".data :: extra_write_names ≠ ([] : List Str) :=
  ⟨rfl, by simp⟩

/-- C2 (amended): the empty-pool warn-and-skip and the one-shot
texture-identity verification belong to the common (textures-only)
packager only: `extract_common` skips on an empty pool and propagates a
verification failure, while `extract_from_level` has no pool check and
never runs the verification — with the archive present (here with an
empty record list) and an empty pool it proceeds to write its outputs. -/
theorem c2_pool_check_only_in_common (db : ObjectFileDB) (tex_db : TextureDB)
    (dgo_name : Str) (hacks : DecompileHacks) :
    (tex_db.textures = [] → extract_common db tex_db dgo_name false = .ok []) ∧
    (∀ e, dgo_count db dgo_name ≠ 0 → tex_db.textures ≠ [] →
      confirm_textures_identical tex_db = .error e →
      extract_common db tex_db dgo_name false = .error e) ∧
    (db.obj_files_by_dgo.lookup dgo_name = some [] → tex_db = ⟨[], [], []⟩ →
      extract_from_level db tex_db dgo_name hacks false false =
        .ok ([base_name dgo_name ++ ".fr3".data] ++ extra_write_names)) := by
  refine ⟨?_, ?_, ?_⟩
  · intro h
    unfold extract_common
    by_cases hd : dgo_count db dgo_name = 0
    · rw [if_pos hd]
    · rw [if_neg hd, if_pos (by rw [h]; rfl)]
  · intro e hd ht hc
    unfold extract_common
    rw [if_neg hd, if_neg (by simpa using ht)]
    simp only [hc]
  · intro hrec htex
    subst htex
    have hcount : dgo_count db dgo_name = 1 := by
      unfold dgo_count
      rw [hrec]
    have h1 : add_all_textures_from_level {} dgo_name ⟨[], [], []⟩ = .ok {} := rfl
    have h2 : extract_bsp_from_level db ⟨[], [], []⟩ dgo_name hacks false {} =
        .ok ([], {}) := by
      unfold extract_bsp_from_level
      simp only [hrec, get_bsp_file_nil]
    have h3 : extract_art_groups_from_level db ⟨[], [], []⟩ [] dgo_name {} =
        .ok {} := by
      unfold extract_art_groups_from_level
      simp only [hrec]
      rfl
    have hg1 : borrow_guard db dgo_name "SNO.DGO".data = false := by
      unfold borrow_guard
      rw [hcount]
      simp
    have hg2 : borrow_guard db dgo_name "MIS.DGO".data = false := by
      unfold borrow_guard
      rw [hcount]
      simp
    unfold extract_from_level
    rw [if_neg (by rw [hcount]; exact one_ne_zero)]
    simp only [h1, h2, h3, hg1, hg2, Bool.false_eq_true, if_false]
    simp

theorem c2_pool_check_only_in_common_witness :
    extract_common sampleDb emptyTexDb "TEST.DGO".data false = .ok [] ∧
    extract_from_level sampleDb emptyTexDb "TEST.DGO".data {} false false =
      .ok ([base_name "TEST.DGO".data ++ ".fr3".data] ++ extra_write_names) :=
  ⟨(c2_pool_check_only_in_common sampleDb emptyTexDb "TEST.DGO".data {}).1 rfl,
   (c2_pool_check_only_in_common sampleDb emptyTexDb "TEST.DGO".data {}).2.2 rfl rfl⟩

/-- C1 (code evaluation at the failing input): processing the present
level `TEST.DGO` reports 175 written files, not one — its own
`TEST.fr3` followed by the 174 fixed-name copies of the anomalous write
block (which include, e.g., `ATE.fr3`). -/
theorem c1_anomalous_extra_writes :
    extract_from_level sampleDb emptyTexDb "TEST.DGO".data {} false false =
      .ok ("TEST.fr3".data :: extra_write_names) ∧
    ("TEST.fr3".data :: extra_write_names).length = 175 ∧
    "ATE.fr3".data ∈ extra_write_names :=
  ⟨rfl, rfl, by decide⟩

end ExtractLevel
